import Mathlib

set_option autoImplicit false

namespace SubsLat

/-!
Verification of the subtitle-downloader's resolution pipeline against its
natural-language specification.  Each definition is a shallow embedding of one
function of the Python source (main.py and the src/ package); network and
filesystem effects are passed in explicitly as values describing what the
external call returned.
-/

/-- A readable video file, as `get_file_hash` sees it: its size in bytes and
the byte stored at each offset (the code below only ever reads offsets inside
the file). -/
structure FileData where
  size : Nat
  byte : Nat → Nat

/-- The 8-byte little-endian word at offset `off`, as `struct.unpack('<q', ...)`
reads it.  Python unpacks a signed value, but the signed and unsigned readings
agree modulo 2^64, and the running hash is masked to 64 bits at every step, so
the unsigned word is the faithful value here. -/
def wordLE (f : FileData) (off : Nat) : Nat :=
  f.byte off + 256 * f.byte (off + 1) + 256 ^ 2 * f.byte (off + 2) +
    256 ^ 3 * f.byte (off + 3) + 256 ^ 4 * f.byte (off + 4) +
    256 ^ 5 * f.byte (off + 5) + 256 ^ 6 * f.byte (off + 6) +
    256 ^ 7 * f.byte (off + 7)

/-- One iteration of `get_file_hash`'s read loop:
`hash_val += l_value; hash_val &= 0xFFFFFFFFFFFFFFFF`, reading the `i`-th
8-byte word after `base`. -/
def hashStep (f : FileData) (base : Nat) (acc i : Nat) : Nat :=
  (acc + wordLE f (base + 8 * i)) % 2 ^ 64

/-- `Nat.digitChar` already renders 0..15 as the lowercase hex digits
0-9, a-f, which is what Python's `%x` produces.  `hex16 v` is `"%016x" % v`
for `v < 2 ^ 64`: exactly 16 zero-padded lowercase hex digits (the running
hash is masked to 64 bits, so the padded width is never exceeded). -/
def hex16 (v : Nat) : String :=
  String.mk ((List.range 16).reverse.map (fun i => Nat.digitChar (v / 16 ^ i % 16)))

/-- `get_file_hash` from main.py: `None` for files under 128 KiB, otherwise the
64-bit rolling sum over the first and the last 64 KiB plus the file size,
rendered as 16 hex digits.  The seek target `max(0, filesize - 65536)` is
`f.size - 65536` here, which truncated subtraction renders exactly. -/
def get_file_hash (f : FileData) : Option String :=
  if f.size < 65536 * 2 then none
  else
    let h1 := (List.range (65536 / 8)).foldl (hashStep f 0) f.size
    let h2 := (List.range (65536 / 8)).foldl (hashStep f (f.size - 65536)) h1
    some (hex16 h2)

/-- The plain (unmasked) sum of the 65536 / 8 = 8192 words starting at
`base`, the quantity the spec describes the digest through. -/
def wordSum (f : FileData) (base : Nat) : Nat :=
  ((List.range (65536 / 8)).map (fun i => wordLE f (base + 8 * i))).sum

/-- Is `c` one of the sixteen lowercase hex digit characters? -/
def isLowerHexDigit (c : Char) : Bool :=
  ( "0123456789abcdef" ).data.contains c

lemma foldl_hashStep_mod (f : FileData) (base : Nat) (l : List Nat) (a : Nat) :
    l.foldl (hashStep f base) a % 2 ^ 64 =
      (a + (l.map (fun i => wordLE f (base + 8 * i))).sum) % 2 ^ 64 := by
  induction l generalizing a with
  | nil => simp
  | cons x xs ih =>
      simp only [List.foldl_cons, List.map_cons, List.sum_cons]
      rw [ih, hashStep, Nat.mod_add_mod, Nat.add_assoc]

lemma foldl_hashStep_lt (f : FileData) (base : Nat) (l : List Nat) (a : Nat)
    (h : l ≠ []) : l.foldl (hashStep f base) a < 2 ^ 64 := by
  induction l generalizing a with
  | nil => exact absurd rfl h
  | cons x xs ih =>
      cases xs with
      | nil =>
          simp only [List.foldl_cons, List.foldl_nil, hashStep]
          exact Nat.mod_lt _ (by norm_num)
      | cons y ys => exact ih _ (by simp)

lemma hex16_length (v : Nat) : (hex16 v).length = 16 := by
  simp [hex16, String.length]

lemma digitChar_isLowerHex (d : Nat) (h : d < 16) :
    isLowerHexDigit (Nat.digitChar d) = true := by
  interval_cases d <;> decide

lemma hex16_chars (v : Nat) : (hex16 v).data.all isLowerHexDigit = true := by
  simp only [hex16, List.all_eq_true]
  intro c hc
  obtain ⟨i, _, rfl⟩ := List.mem_map.1 hc
  exact digitChar_isLowerHex _ (Nat.mod_lt _ (by norm_num))

/-- C2: `get_file_hash` is a pure function of the file's size and contents.
For a file of at least 131072 bytes it returns the 16-lowercase-hex-digit
rendering of (size + sum of the 8-byte little-endian words of the first
65536 bytes + sum of those of the last 65536 bytes) modulo 2^64; for a
smaller file it returns `none`, never a digest. -/
theorem get_file_hash_spec (f : FileData) :
    get_file_hash f =
      (if f.size < 131072 then none
       else some (hex16 ((f.size + wordSum f 0 + wordSum f (f.size - 65536)) % 2 ^ 64))) ∧
    ∀ s, get_file_hash f = some s →
      s.length = 16 ∧ s.data.all isLowerHexDigit = true := by
  have hco : (65536 * 2 : Nat) = 131072 := by norm_num
  constructor
  · unfold get_file_hash
    rw [hco]
    by_cases h : f.size < 131072
    · simp [h]
    · simp only [h, if_false]
      show some (hex16 ((List.range (65536 / 8)).foldl (hashStep f (f.size - 65536))
        ((List.range (65536 / 8)).foldl (hashStep f 0) f.size))) = _
      have hne : (List.range (65536 / 8)) ≠ [] := by
        simp [List.range_eq_nil]
      have h1lt := foldl_hashStep_lt f 0 (List.range (65536 / 8)) f.size hne
      have h2lt := foldl_hashStep_lt f (f.size - 65536) (List.range (65536 / 8))
        ((List.range (65536 / 8)).foldl (hashStep f 0) f.size) hne
      have e1 : (List.range (65536 / 8)).foldl (hashStep f 0) f.size =
          (f.size + wordSum f 0) % 2 ^ 64 := by
        rw [← Nat.mod_eq_of_lt h1lt, foldl_hashStep_mod]
        simp only [wordSum]
      have e2 : (List.range (65536 / 8)).foldl (hashStep f (f.size - 65536))
            ((List.range (65536 / 8)).foldl (hashStep f 0) f.size) =
          ((f.size + wordSum f 0) % 2 ^ 64 + wordSum f (f.size - 65536)) % 2 ^ 64 := by
        rw [← Nat.mod_eq_of_lt h2lt, foldl_hashStep_mod, e1]
        simp only [wordSum]
      rw [e2, Nat.mod_add_mod]
  · intro s hs
    unfold get_file_hash at hs
    rw [hco] at hs
    by_cases h : f.size < 131072
    · rw [if_pos h] at hs
      exact absurd hs (by simp)
    · rw [if_neg h] at hs
      obtain rfl := Option.some.inj hs
      exact ⟨hex16_length _, hex16_chars _⟩

/-- Witness for C2: a concrete 131072-byte all-zero file, whose digest is
`hex16 131072`; the length/character facts come out of the theorem. -/
theorem get_file_hash_spec_witness :
    (hex16 131072).length = 16 ∧ (hex16 131072).data.all isLowerHexDigit = true := by
  have hz : ∀ base, wordSum ⟨131072, fun _ => 0⟩ base = 0 := by
    intro base
    unfold wordSum
    rw [List.sum_eq_zero]
    intro x hx
    obtain ⟨i, _, rfl⟩ := List.mem_map.1 hx
    simp [wordLE]
  have h := get_file_hash_spec ⟨131072, fun _ => 0⟩
  refine h.2 (hex16 131072) ?_
  rw [h.1]
  norm_num [hz]

/-- Python's `name.endswith(suffix)`: the final characters of `name` are
exactly `suffix`.  (Written over the character list so that it evaluates by
kernel reduction.) -/
def strEndsWith (name suffix : String) : Bool :=
  suffix.data.isSuffixOf name.data

/-- What Python's `zipfile` exposes of a byte string once opened: the members
in `namelist()` order, each with the bytes `zf.read(name)` yields.  `none`
models `zipfile` raising (not a parsable archive, or an unreadable member),
which `_extract_subtitle_content` catches with its bare `except`. -/
abbrev ZipView := Option (List (String × List Nat))

/-- The ZIP local-file-header signature `PK\x03\x04`. -/
def zipSig : List Nat := [0x50, 0x4B, 0x03, 0x04]

/-- The member-selection loop of `_extract_subtitle_content`: the first member
named `*.srt` if any, else the archive's first member, else (empty archive)
the original bytes. -/
def pickZipMember (content : List Nat) (members : List (String × List Nat)) :
    List Nat :=
  match members.find? (fun m => strEndsWith m.1 ".srt" ) with
  | some m => m.2
  | none =>
    match members with
    | [] => content
    | m :: _ => m.2

/-- `_extract_subtitle_content` from main.py: pass non-ZIP bytes through
unchanged; open signed bytes as an archive and pick a member; on a zipfile
error fall back to the input unchanged. -/
def extract_subtitle_content (content : List Nat) (zip : ZipView) : List Nat :=
  if content.take 4 = zipSig then
    match zip with
    | none => content
    | some members => pickZipMember content members
  else content

lemma find?_of_filter_eq_singleton {α : Type} (p : α → Bool) (l : List α) (a : α)
    (h : l.filter p = [a]) : l.find? p = some a := by
  induction l with
  | nil => simp at h
  | cons x xs ih =>
      by_cases hx : p x
      · rw [List.filter_cons_of_pos hx] at h
        obtain ⟨rfl, -⟩ := List.cons_eq_cons.1 h
        simp [List.find?_cons_of_pos _ hx]
      · rw [List.filter_cons_of_neg hx] at h
        rw [List.find?_cons_of_neg _ hx]
        exact ih h

/-- C3: bytes that do not start with the ZIP signature pass through
`_extract_subtitle_content` unchanged, whatever the archive layer would have
said; and a valid archive whose members include exactly one `*.srt` member
yields exactly that member's uncompressed bytes. -/
theorem extract_subtitle_content_spec (content : List Nat) (zip : ZipView)
    (members : List (String × List Nat)) (m : String × List Nat) :
    (content.take 4 ≠ zipSig → extract_subtitle_content content zip = content) ∧
    (content.take 4 = zipSig →
      members.filter (fun x => strEndsWith x.1 ".srt" ) = [m] →
      extract_subtitle_content content (some members) = m.2) := by
  constructor
  · intro h
    unfold extract_subtitle_content
    rw [if_neg h]
  · intro hsig hone
    unfold extract_subtitle_content
    rw [if_pos hsig]
    show pickZipMember content members = m.2
    unfold pickZipMember
    rw [find?_of_filter_eq_singleton _ _ _ hone]

/-- Witness for C3: plain text passes through; a one-member archive holding
`sub.srt` with body bytes [1, 2, 3] yields exactly those bytes. -/
theorem extract_subtitle_content_spec_witness :
    extract_subtitle_content [0x48, 0x69] none = [0x48, 0x69] ∧
    extract_subtitle_content zipSig (some [( "sub.srt" , [1, 2, 3])]) = [1, 2, 3] :=
  ⟨(extract_subtitle_content_spec [0x48, 0x69] none [] ( "" , [])).1 (by decide),
   (extract_subtitle_content_spec zipSig (some [( "sub.srt" , [1, 2, 3])])
      [( "sub.srt" , [1, 2, 3])] ( "sub.srt" , [1, 2, 3])).2 (by decide) (by decide)⟩

/-- C10: a signed, parsable archive with no `*.srt` member yields its first
member's bytes whatever that member's extension; the empty archive and the
unparsable byte string fall back to the input unchanged. -/
theorem extract_subtitle_content_no_srt (content : List Nat)
    (members : List (String × List Nat)) :
    (content.take 4 = zipSig →
      (∀ x ∈ members, strEndsWith x.1 ".srt" = false) →
      extract_subtitle_content content (some members) =
        (match members with | [] => content | m :: _ => m.2)) ∧
    extract_subtitle_content content none = content := by
  constructor
  · intro hsig hno
    unfold extract_subtitle_content
    rw [if_pos hsig]
    show pickZipMember content members = _
    unfold pickZipMember
    have hfind : members.find? (fun m => strEndsWith m.1 ".srt" ) = none := by
      rw [List.find?_eq_none]
      intro x hx
      simp [hno x hx]
    rw [hfind]
  · unfold extract_subtitle_content
    by_cases h : content.take 4 = zipSig
    · rw [if_pos h]
    · rw [if_neg h]

/-- Witness for C10: an archive holding `readme.txt` then `b.sub` yields the
first member's bytes [9, 9]. -/
theorem extract_subtitle_content_no_srt_witness :
    extract_subtitle_content zipSig
      (some [( "readme.txt" , [9, 9]), ( "b.sub" , [7])]) = [9, 9] :=
  (extract_subtitle_content_no_srt zipSig
      [( "readme.txt" , [9, 9]), ( "b.sub" , [7])]).1 (by decide) (by decide)

/-- Digit-by-digit decimal rendering, most significant first; `fuel` bounds the
recursion and any `fuel ≥ n` gives the exact rendering. -/
def natReprAux : Nat → Nat → List Char
  | 0, _ => []
  | fuel + 1, n =>
    if n = 0 then [] else natReprAux fuel (n / 10) ++ [Nat.digitChar (n % 10)]

/-- Python's `str(n)` / f-string rendering of a non-negative integer. -/
def natRepr (n : Nat) : String :=
  if n = 0 then "0" else String.mk (natReprAux n n)

/-- Reads a digit character back; folding it over a rendering recovers the
number, which is what makes `natRepr` injective. -/
def unreprChar (a : Nat) (c : Char) : Nat :=
  a * 10 + (c.toNat - 48)

lemma digitChar_toNat (d : Nat) (h : d < 10) : (Nat.digitChar d).toNat - 48 = d := by
  interval_cases d <;> decide

lemma unrepr_natReprAux (fuel : Nat) : ∀ n a, n ≤ fuel →
    (natReprAux fuel n).foldl unreprChar a = a * 10 ^ (natReprAux fuel n).length + n := by
  induction fuel with
  | zero =>
      intro n a hn
      interval_cases n
      simp [natReprAux]
  | succ fuel ih =>
      intro n a _
      by_cases hz : n = 0
      · simp [natReprAux, hz]
      · have hdiv : n / 10 ≤ fuel := by omega
        simp only [natReprAux, hz, if_false, List.foldl_append, List.foldl_cons,
          List.foldl_nil, List.length_append, List.length_cons, List.length_nil]
        rw [ih (n / 10) a hdiv]
        simp only [unreprChar, digitChar_toNat (n % 10) (Nat.mod_lt _ (by norm_num))]
        rw [pow_succ]
        have := Nat.div_add_mod n 10
        ring_nf
        omega

lemma natReprAux_ne_nil (fuel n : Nat) (hn : n ≠ 0) (hf : n ≤ fuel) :
    natReprAux fuel n ≠ [] := by
  cases fuel with
  | zero => omega
  | succ fuel => simp [natReprAux, hn]

lemma natRepr_injective (m n : Nat) (h : natRepr m = natRepr n) : m = n := by
  have key : ∀ k, k ≠ 0 → (natRepr k).data.foldl unreprChar 0 = k := by
    intro k hk
    unfold natRepr
    rw [if_neg hk]
    have := unrepr_natReprAux k k 0 le_rfl
    simpa using this
  by_cases hm : m = 0 <;> by_cases hn : n = 0
  · omega
  · exfalso
    unfold natRepr at h
    rw [if_pos hm, if_neg hn] at h
    have hd : ( "0" ).data = natReprAux n n := congrArg String.data h
    have h0 : (natReprAux n n).foldl unreprChar 0 = n :=
      by simpa using unrepr_natReprAux n n 0 le_rfl
    have hz : ( "0" ).data.foldl unreprChar 0 = 0 := by decide
    rw [← hd, hz] at h0
    omega
  · exfalso
    unfold natRepr at h
    rw [if_neg hm, if_pos hn] at h
    have hd : natReprAux m m = ( "0" ).data := congrArg String.data h
    have h0 : (natReprAux m m).foldl unreprChar 0 = m :=
      by simpa using unrepr_natReprAux m m 0 le_rfl
    have hz : ( "0" ).data.foldl unreprChar 0 = 0 := by decide
    rw [hd, hz] at h0
    omega
  · have h1 := key m hm
    have h2 := key n hn
    rw [h] at h1
    omega

/-- Index of the last '.' in the list, scanning left to right and keeping the
most recent hit — `name.rfind('.')`, which pathlib's stem/suffix use. -/
def lastDotAux : List Char → Nat → Option Nat → Option Nat
  | [], _, acc => acc
  | c :: rest, i, acc => lastDotAux rest (i + 1) (if c = '.' then some i else acc)

/-- `name.rfind('.')` over a file name. -/
def lastDot (name : String) : Option Nat :=
  lastDotAux name.data 0 none

/-- `pathlib.PurePath.stem` for a bare file name: everything before the last
'.' when that dot is neither the leading nor the trailing character, else the
whole name. -/
def pathStem (name : String) : String :=
  match lastDot name with
  | none => name
  | some i =>
    if 0 < i ∧ i + 1 < name.data.length then String.mk (name.data.take i) else name

/-- `pathlib.PurePath.suffix` for a bare file name: the last '.' and what
follows it, under the same guard as `pathStem`, else the empty string. -/
def pathSuffix (name : String) : String :=
  match lastDot name with
  | none => ""
  | some i =>
    if 0 < i ∧ i + 1 < name.data.length then String.mk (name.data.drop i) else ""

/-- A video path as `_do_download` uses it: `Path(p).parent` and the bare file
name. -/
structure VideoPath where
  dir : String
  name : String

/-- A filesystem snapshot: the bytes stored under each path, if any. -/
abbrev FS := String → Option (List Nat)

/-- The persist step of `_do_download` / `_do_download_all`:
`sub_name = f"{video.stem}.{language}.srt"` placed in the video's directory and
written with `open(sub_path, 'wb')`, which truncates and replaces whatever was
there.  Returns the written path and the updated filesystem. -/
def persistSubtitle (fs : FS) (video : VideoPath) (language : String)
    (content : List Nat) : String × FS :=
  let subName := pathStem video.name ++ "." ++ language ++ ".srt"
  let subPath := video.dir ++ "/" ++ subName
  (subPath, fun p => if p = subPath then some content else fs p)

/-- C4: the primary download path persists to exactly
`<video-stem>.<languageCode>.srt` beside the video; the written path now holds
the new bytes — an existing file of that name is overwritten, not renamed or
disambiguated — and no other path changes. -/
theorem persistSubtitle_spec (fs : FS) (video : VideoPath) (language : String)
    (content : List Nat) :
    (persistSubtitle fs video language content).1 =
      video.dir ++ "/" ++ (pathStem video.name ++ "." ++ language ++ ".srt") ∧
    (persistSubtitle fs video language content).2
      (persistSubtitle fs video language content).1 = some content ∧
    ∀ q, q ≠ (persistSubtitle fs video language content).1 →
      (persistSubtitle fs video language content).2 q = fs q := by
  refine ⟨rfl, ?_, ?_⟩
  · simp [persistSubtitle]
  · intro q hq
    simp only [persistSubtitle] at hq ⊢
    rw [if_neg hq]

/-- Witness for C4: video `Show.S01E02.mkv` with language `es` writes exactly
`Show.S01E02.es.srt` in the video's directory, replacing the prior bytes [0]
stored there with the new bytes [1]. -/
theorem persistSubtitle_spec_witness :
    (persistSubtitle
        (fun p => if p = "d/Show.S01E02.es.srt" then some [0] else none)
        ⟨ "d" , "Show.S01E02.mkv" ⟩ "es" [1]).1 = "d/Show.S01E02.es.srt" ∧
    (persistSubtitle
        (fun p => if p = "d/Show.S01E02.es.srt" then some [0] else none)
        ⟨ "d" , "Show.S01E02.mkv" ⟩ "es" [1]).2 "d/Show.S01E02.es.srt" = some [1] := by
  have h := persistSubtitle_spec
    (fun p => if p = "d/Show.S01E02.es.srt" then some [0] else none)
    ⟨ "d" , "Show.S01E02.mkv" ⟩ "es" [1]
  have e : (persistSubtitle
      (fun p => if p = "d/Show.S01E02.es.srt" then some [0] else none)
      ⟨ "d" , "Show.S01E02.mkv" ⟩ "es" [1]).1 = "d/Show.S01E02.es.srt" :=
    h.1.trans (by decide)
  exact ⟨e, e ▸ h.2.1⟩

/-- The language vocabulary of src/providers/base.py. -/
inductive Language where
  | SPANISH_SPAIN : Language
  | SPANISH_LATAM : Language
  | ENGLISH : Language
deriving DecidableEq

/-- `SubtitleResult` from src/providers/base.py.  `rating` stands in for the
float field; only its identity matters to the claims, never float
arithmetic. -/
structure SubtitleResult where
  title : String
  language : Language
  provider : String
  download_url : String
  description : String
  downloads : Nat
  rating : Int
deriving DecidableEq

/-- Outcome of a `requests` call: the request raised (network error, timeout),
or came back with a status code and a body whose JSON decode may itself
fail. -/
inductive HttpResult (α : Type) where
  | exn : HttpResult α
  | resp : Nat → Except Unit α → HttpResult α

/-- One entry of the structured API's `data` array as
`OpenSubtitlesProvider.search` reads it.  `ratingsOk` models whether
`float(attributes.get('ratings', 0))` succeeds; when it raises, the per-item
`except` skips just that item. -/
structure OSItem where
  release : Option String
  language : Option String
  files : List (Option Nat)
  comments : Option String
  download_count : Option Nat
  ratingsOk : Bool
  ratings : Int
deriving DecidableEq

/-- `str(file_info.get('file_id', ''))`: decimal rendering of the id, or the
empty string when the key is absent. -/
def fileIdStr (fid : Option Nat) : String :=
  match fid with
  | none => ""
  | some i => natRepr i

/-- The loop body of `OpenSubtitlesProvider.search` for one item: skip it when
its `files` list is empty (the explicit `continue`) or when the float
conversion raises (the per-item `except`); otherwise build the result
record. -/
def parseOSItem (it : OSItem) : Option SubtitleResult :=
  let lang := if it.language.getD "es" = "en" then Language.ENGLISH
    else Language.SPANISH_LATAM
  match it.files with
  | [] => none
  | fileInfo :: _ =>
    if it.ratingsOk then
      some ⟨it.release.getD "Sin título" , lang, "OpenSubtitles" , fileIdStr fileInfo,
        it.comments.getD "" , it.download_count.getD 0, it.ratings⟩
    else none

/-- `OpenSubtitlesProvider.search` from src/providers/opensubtitles.py: refuse
without an API key; on a raised request, a non-200 status or an unparsable
body return the empty list; otherwise collect the per-item parses, skipping
the bad ones, and cap at 15. -/
def OpenSubtitlesProvider.search (apiKey : String) (r : HttpResult (List OSItem)) :
    List SubtitleResult :=
  if apiKey = "" then []
  else
    match r with
    | .exn => []
    | .resp status body =>
      if status ≠ 200 then []
      else
        match body with
        | .error _ => []
        | .ok items => (items.filterMap parseOSItem).take 15

/-- The three selector passes `SubDivXProvider._parse_results` makes over the
rendered page: the first two run `_extract_result` per element (whose
try/except yields `none` for a malformed element), the third takes the direct
`/subs/` links. -/
structure Soup where
  sel1 : List (Option SubtitleResult)
  sel2 : List (Option SubtitleResult)
  sel3 : List SubtitleResult

/-- `SubDivXProvider._parse_results`: selector 1, falling through to selector 2
and then selector 3 only while the result list is still empty. -/
def SubDivX.parse_results (soup : Soup) : List SubtitleResult :=
  let r1 := soup.sel1.filterMap id
  if r1 ≠ [] then r1
  else
    let r2 := soup.sel2.filterMap id
    if r2 ≠ [] then r2
    else soup.sel3

/-- Outcome of driving the browser to the search page: the navigation raised,
or produced a page to parse. -/
inductive NavOutcome where
  | exn : NavOutcome
  | page : Soup → NavOutcome

/-- `SubDivXProvider.search` from src/providers/subdivx.py: no Playwright or a
failed browser launch degrade to no results; a raised navigation is caught to
no results; a parsed page yields at most 15 results. -/
def SubDivXProvider.search (playwrightAvailable browserOk : Bool)
    (nav : NavOutcome) : List SubtitleResult :=
  if ¬ playwrightAvailable then []
  else if ¬ browserOk then []
  else
    match nav with
    | .exn => []
    | .page soup => (SubDivX.parse_results soup).take 15

/-- A result dict as the orchestrator in main.py holds it: the optional
'provider' key, the attribute fields the download path reads, and whether the
two smuggled Subliminal handles are present (display-only attributes are not
modelled). -/
structure OrchSub where
  provider : Option String
  language : Option String
  files : List (Option Nat)
  subHandle : Bool
  videoHandle : Bool
deriving DecidableEq

/-- One subtitle Subliminal's pool lists: its source provider's name and
whether its language is Spanish. -/
structure SubSub where
  providerName : String
  isSpanish : Bool
deriving DecidableEq

/-- Outcome of `scan_video` + `pool.list_subtitles`: raised, or a list of
subtitles. -/
inductive SubliminalOutcome where
  | exn : SubliminalOutcome
  | subs : List SubSub → SubliminalOutcome

/-- `SubliminalFallback.search_for_video` from main.py: without the library or
on a raised scan/listing, no results; otherwise the first 15 subtitles mapped
onto orchestrator dicts carrying the `Subliminal (source)` provider name, a
single `files` entry whose `file_id` is `None`, and both smuggled handles. -/
def SubliminalFallback.search_for_video (available : Bool)
    (o : SubliminalOutcome) : List OrchSub :=
  if ¬ available then []
  else
    match o with
    | .exn => []
    | .subs l =>
      (l.take 15).map (fun s =>
        ⟨some ( "Subliminal (" ++ s.providerName ++ ")" ),
          some (if s.isSpanish then "es" else "en" ), [none], true, true⟩)

/-- `OpenSubtitlesAPI.search` from main.py (the client the orchestrator
actually calls): on a 200 response return the decoded `data` list as-is — no
cap — and [] on any failure. -/
def OpenSubtitlesAPI.search (r : HttpResult (List OrchSub)) : List OrchSub :=
  match r with
  | .exn => []
  | .resp status body =>
    if status = 200 then
      match body with
      | .error _ => []
      | .ok data => data
    else []

/-- C5 counterexample: the orchestrator's structured-API client returns the
response's `data` list without any cap — a 16-item response yields 16
results, more than 15. -/
theorem OpenSubtitlesAPI_search_uncapped :
    15 < (OpenSubtitlesAPI.search (.resp 200 (.ok
      (List.replicate 16 (⟨none, none, [], false, false⟩ : OrchSub))))).length := by
  show 15 < (List.replicate 16 (⟨none, none, [], false, false⟩ : OrchSub)).length
  rw [List.length_replicate]
  norm_num

/-- C5 amended: the provider-class searches (structured API, SubDivX) and the
aggregator fallback each return at most 15 results, but the structured-API
client the orchestrator actually uses (`OpenSubtitlesAPI.search` in main.py)
returns the 200-response's data list uncapped. -/
theorem search_result_caps (apiKey : String) (r : HttpResult (List OSItem))
    (pw bOk : Bool) (nav : NavOutcome) (avail : Bool) (o : SubliminalOutcome)
    (data : List OrchSub) :
    (OpenSubtitlesProvider.search apiKey r).length ≤ 15 ∧
    (SubDivXProvider.search pw bOk nav).length ≤ 15 ∧
    (SubliminalFallback.search_for_video avail o).length ≤ 15 ∧
    OpenSubtitlesAPI.search (.resp 200 (.ok data)) = data := by
  refine ⟨?_, ?_, ?_, ?_⟩
  · by_cases hk : apiKey = ""
    · simp [OpenSubtitlesProvider.search, hk]
    · cases r with
      | exn => simp [OpenSubtitlesProvider.search, hk]
      | resp status body =>
          by_cases hs : status = 200
          · cases body with
            | error e => simp [OpenSubtitlesProvider.search, hk, hs]
            | ok items => simp [OpenSubtitlesProvider.search, hk, hs]
          · simp [OpenSubtitlesProvider.search, hk, hs]
  · cases nav with
    | exn => cases pw <;> cases bOk <;> simp [SubDivXProvider.search]
    | page soup => cases pw <;> cases bOk <;> simp [SubDivXProvider.search]
  · cases o with
    | exn => cases avail <;> simp [SubliminalFallback.search_for_video]
    | subs l => cases avail <;> simp [SubliminalFallback.search_for_video]
  · rfl

/-- C6: provider searches contain recoverable failures at the provider
boundary.  The structured-API provider yields [] on a missing API key, a
raised request, a non-200 status, or an unparsable body, and skips a
malformed item while keeping the rest; SubDivX yields [] when Playwright is
missing, the browser fails to launch, or the navigation raises. -/
theorem provider_search_contained (apiKey : String) (r : HttpResult (List OSItem))
    (status : Nat) (body : Except Unit (List OSItem)) (bad : OSItem)
    (pre post : List OSItem) (bOk : Bool) (nav : NavOutcome) :
    (OpenSubtitlesProvider.search "" r = []) ∧
    (OpenSubtitlesProvider.search apiKey .exn = []) ∧
    (status ≠ 200 → OpenSubtitlesProvider.search apiKey (.resp status body) = []) ∧
    (OpenSubtitlesProvider.search apiKey (.resp 200 (.error ())) = []) ∧
    (parseOSItem bad = none →
      OpenSubtitlesProvider.search apiKey (.resp 200 (.ok (pre ++ bad :: post))) =
        OpenSubtitlesProvider.search apiKey (.resp 200 (.ok (pre ++ post)))) ∧
    (SubDivXProvider.search false bOk nav = []) ∧
    (SubDivXProvider.search true false nav = []) ∧
    (SubDivXProvider.search true true .exn = []) := by
  refine ⟨?_, ?_, ?_, ?_, ?_, ?_, ?_, ?_⟩
  · simp [OpenSubtitlesProvider.search]
  · by_cases hk : apiKey = "" <;> simp [OpenSubtitlesProvider.search, hk]
  · intro hs
    by_cases hk : apiKey = "" <;> simp [OpenSubtitlesProvider.search, hk, hs]
  · by_cases hk : apiKey = "" <;> simp [OpenSubtitlesProvider.search, hk]
  · intro hbad
    by_cases hk : apiKey = ""
    · simp [OpenSubtitlesProvider.search, hk]
    · simp [OpenSubtitlesProvider.search, hk, List.filterMap_append,
        List.filterMap_cons, hbad]
  · simp [SubDivXProvider.search]
  · simp [SubDivXProvider.search]
  · simp [SubDivXProvider.search]

/-- Witness for C6: with a configured key, an item whose `files` list is empty
is skipped while the well-formed item around it is kept. -/
theorem provider_search_contained_witness :
    OpenSubtitlesProvider.search "" HttpResult.exn = [] ∧
    OpenSubtitlesProvider.search "k" (.resp 200 (.ok
        [⟨some "R" , some "en" , [some 7], some "" , some 3, true, 0⟩,
         ⟨none, none, [], none, none, true, 0⟩])) =
      OpenSubtitlesProvider.search "k" (.resp 200 (.ok
        [⟨some "R" , some "en" , [some 7], some "" , some 3, true, 0⟩])) :=
  ⟨(provider_search_contained "" HttpResult.exn 0 (.error ())
      ⟨none, none, [], none, none, true, 0⟩ [] [] false .exn).1,
   (provider_search_contained "k" HttpResult.exn 0 (.error ())
      ⟨none, none, [], none, none, true, 0⟩
      [⟨some "R" , some "en" , [some 7], some "" , some 3, true, 0⟩] [] false
      .exn).2.2.2.2.1 (by decide)⟩

/-- Python truthiness of an optional string (`if file_hash and ...`): present
and non-empty. -/
def pyTruthy (s : Option String) : Bool :=
  match s with
  | none => false
  | some v => v ≠ ""

/-- The inputs the three-stage search of `_do_search` / `_do_download_all`
consults: the fingerprint `get_file_hash` returned, whether
`OPENSUBTITLES_API_KEY` is set (non-empty) and Subliminal importable, and what
each provider call would return if made. -/
structure SearchEnv where
  fileHash : Option String
  apiKeyConfigured : Bool
  subliminalAvailable : Bool
  hashSearch : List OrchSub
  querySearch : List OrchSub
  subliminalSearch : List OrchSub

/-- One fallback stage of the orchestrator. -/
inductive Stage where
  | hash : Stage
  | query : Stage
  | subliminal : Stage
deriving DecidableEq

/-- The three-stage fallback shared by `_do_search` and `_do_download_all`:
each stage runs only under its guard and only while `results` is still empty;
returns the final `results` plus the trace of stages actually invoked, in
order. -/
def doSearchStages (env : SearchEnv) : List OrchSub × List Stage :=
  let s1 : List OrchSub × List Stage :=
    if pyTruthy env.fileHash ∧ env.apiKeyConfigured
    then (env.hashSearch, [Stage.hash]) else ([], [])
  let s2 : List OrchSub × List Stage :=
    if s1.1 = [] ∧ env.apiKeyConfigured
    then (env.querySearch, s1.2 ++ [Stage.query]) else s1
  if s2.1 = [] ∧ env.subliminalAvailable
  then (env.subliminalSearch, s2.2 ++ [Stage.subliminal]) else s2

/-- C1: the fixed provider ordering of the orchestrator.  Hash search runs
exactly when a fingerprint is available and the API key is configured; query
search is invoked only when the hash stage left the result list empty;
aggregator fallback only when both earlier stages left it empty; a non-empty
stage short-circuits everything later; and the invocation trace follows the
fixed order hash, query, subliminal. -/
theorem doSearchStages_order (env : SearchEnv) :
    (Stage.hash ∈ (doSearchStages env).2 ↔
      pyTruthy env.fileHash = true ∧ env.apiKeyConfigured = true) ∧
    (Stage.query ∈ (doSearchStages env).2 →
      (Stage.hash ∈ (doSearchStages env).2 → env.hashSearch = [])) ∧
    (Stage.subliminal ∈ (doSearchStages env).2 →
      (Stage.hash ∈ (doSearchStages env).2 → env.hashSearch = []) ∧
      (Stage.query ∈ (doSearchStages env).2 → env.querySearch = [])) ∧
    (Stage.hash ∈ (doSearchStages env).2 ∧ env.hashSearch ≠ [] →
      (doSearchStages env).2 = [Stage.hash] ∧
      (doSearchStages env).1 = env.hashSearch) ∧
    (Stage.query ∈ (doSearchStages env).2 ∧ env.querySearch ≠ [] →
      Stage.subliminal ∉ (doSearchStages env).2 ∧
      (doSearchStages env).1 = env.querySearch) ∧
    (doSearchStages env).2.Sublist [Stage.hash, Stage.query, Stage.subliminal] := by
  unfold doSearchStages
  by_cases h1 : pyTruthy env.fileHash ∧ env.apiKeyConfigured
  all_goals by_cases hh : env.hashSearch = []
  all_goals by_cases h2 : env.apiKeyConfigured
  all_goals by_cases hq : env.querySearch = []
  all_goals by_cases h3 : env.subliminalAvailable
  all_goals simp_all

/-- Witness for C1: with a fingerprint and key present but the hash and query
stages empty, all three stages fire in order and the aggregator's results are
returned. -/
theorem doSearchStages_order_witness :
    (doSearchStages ⟨some "00000000deadbeef" , true, true, [], [],
        [⟨some "Subliminal (gestdown)" , some "es" , [none], true, true⟩]⟩).2 =
      [Stage.hash, Stage.query, Stage.subliminal] ∧
    (doSearchStages ⟨some "00000000deadbeef" , true, true, [], [],
        [⟨some "Subliminal (gestdown)" , some "es" , [none], true, true⟩]⟩).1 =
      [⟨some "Subliminal (gestdown)" , some "es" , [none], true, true⟩] := by
  have h := doSearchStages_order ⟨some "00000000deadbeef" , true, true, [], [],
    [⟨some "Subliminal (gestdown)" , some "es" , [none], true, true⟩]⟩
  exact ⟨(h.2.2.2.2.2.eq_of_length (by decide)).symm ▸ rfl, by decide⟩

/-- Does some contiguous slice of `hay` equal `need`?  Helper for Python's
`needle in haystack` on strings. -/
def listContainsSeg (need : List Char) : List Char → Bool
  | [] => need.isEmpty
  | c :: rest => need.isPrefixOf (c :: rest) || listContainsSeg need rest

/-- Python's substring test `needle in haystack`. -/
def strContains (haystack needle : String) : Bool :=
  listContainsSeg needle.data haystack.data

lemma isPrefixOf_append (need rest : List Char) :
    need.isPrefixOf (need ++ rest) = true := by
  induction need with
  | nil => simp [List.isPrefixOf]
  | cons c cs ih => simp [List.isPrefixOf, ih]

lemma listContainsSeg_prefix (need rest : List Char) :
    listContainsSeg need (need ++ rest) = true := by
  cases need with
  | nil =>
      cases rest with
      | nil => simp [listContainsSeg]
      | cons c r => simp [listContainsSeg, List.isPrefixOf]
  | cons c cs => simp [listContainsSeg, isPrefixOf_append]

/-- The dispatch test of `_do_download`:
`'Subliminal' in subtitle.get('provider', 'OpenSubtitles')`. -/
def isSubliminalResult (r : OrchSub) : Bool :=
  strContains (r.provider.getD "OpenSubtitles" ) "Subliminal"

/-- `SubliminalFallback.download` from main.py: requires the library, then both
smuggled handles; `poolContent` is what `pool.download_subtitle` left in
`sub.content` (`none` covers a raised download and empty content alike). -/
def SubliminalFallback.download (available : Bool) (r : OrchSub)
    (poolContent : Option (List Nat)) : Option (List Nat) :=
  if ¬ available then none
  else if r.subHandle && r.videoHandle then poolContent
  else none

/-- Outcome of the raw `requests.get(download_link)` byte fetch. -/
inductive FetchOutcome where
  | exn : FetchOutcome
  | resp : Nat → List Nat → FetchOutcome

/-- The structured-API branch of `_do_download`: take `files[0].file_id`
(missing entry, missing id or the falsy id 0 stop it), ask
`opensubtitles.download` for a link, then fetch the link's bytes, all
failures yielding `None`. -/
def osDownloadBranch (r : OrchSub) (link : Option String) (fetch : FetchOutcome) :
    Option (List Nat) :=
  match r.files with
  | [] => none
  | fid :: _ =>
    match fid with
    | none => none
    | some fileId =>
      if fileId = 0 then none
      else
        match link with
        | none => none
        | some _ =>
          match fetch with
          | .exn => none
          | .resp status bytes => if status = 200 then some bytes else none

/-- The provider dispatch of `_do_download`: a result whose provider name
contains 'Subliminal' goes to the aggregator's own download mechanism;
every other result goes to the structured-API two-step download. -/
def orch_download (r : OrchSub) (available : Bool) (poolContent : Option (List Nat))
    (link : Option String) (fetch : FetchOutcome) : Option (List Nat) :=
  if isSubliminalResult r then SubliminalFallback.download available r poolContent
  else osDownloadBranch r link fetch

/-- Does Python's `int(s)` succeed?  A digit string (`str(file_id)`) parses; a
URL raises.  (Sign/whitespace forms never arise from this code and are not
modelled.) -/
def pyIntOk (s : String) : Bool :=
  !s.data.isEmpty && s.data.all (fun c => c.isDigit)

/-- Outcome of `OpenSubtitlesProvider.download`'s POST /download request:
raised, or a status plus decoded (link, file_name) fields; `.error` is an
unparsable body. -/
inductive DlLinkResp where
  | exn : DlLinkResp
  | resp : Nat → Except Unit (Option String × Option String) → DlLinkResp

/-- `OpenSubtitlesProvider.download` from src/providers/opensubtitles.py: no
API key refuses; `int(subtitle.download_url)` raising (a non-numeric
reference, e.g. another provider's URL) is caught to `None`; then the
two-step link request + byte fetch, returning the saved file's path. -/
def OpenSubtitlesProvider.download (apiKey : String) (sub : SubtitleResult)
    (destination : String) (linkResp : DlLinkResp) (fetch : Option (List Nat)) :
    Option String :=
  if apiKey = "" then none
  else if pyIntOk sub.download_url then
    match linkResp with
    | .exn => none
    | .resp status body =>
      if status ≠ 200 then none
      else
        match body with
        | .error _ => none
        | .ok (link, fileName) =>
          match link with
          | none => none
          | some _ =>
            match fetch with
            | none => none
            | some _ => some (destination ++ "/" ++ fileName.getD "subtitle.srt" )
  else none

/-- C9: a result is downloaded only through the provider that produced it.
The orchestrator sends results whose provider name contains 'Subliminal' to
the aggregator's download and all others to the structured-API branch; every
aggregator-produced result fails the structured-API branch (its only file
entry has no id); a result without the aggregator's smuggled handles fails
the aggregator's download; and the provider-class structured-API download
fails on any non-numeric download reference. -/
theorem download_provider_isolation (r : OrchSub) (available : Bool)
    (poolContent : Option (List Nat)) (link : Option String) (fetch : FetchOutcome)
    (avail2 : Bool) (o : SubliminalOutcome) (apiKey : String) (sub : SubtitleResult)
    (destination : String) (linkResp : DlLinkResp) (fetch2 : Option (List Nat)) :
    (isSubliminalResult r = true →
      orch_download r available poolContent link fetch =
        SubliminalFallback.download available r poolContent) ∧
    (isSubliminalResult r = false →
      orch_download r available poolContent link fetch =
        osDownloadBranch r link fetch) ∧
    (∀ s ∈ SubliminalFallback.search_for_video avail2 o,
      isSubliminalResult s = true ∧ osDownloadBranch s link fetch = none) ∧
    (r.subHandle = false ∨ r.videoHandle = false →
      SubliminalFallback.download available r poolContent = none) ∧
    (pyIntOk sub.download_url = false →
      OpenSubtitlesProvider.download apiKey sub destination linkResp fetch2 = none) := by
  refine ⟨?_, ?_, ?_, ?_, ?_⟩
  · intro h
    simp [orch_download, h]
  · intro h
    simp [orch_download, h]
  · intro s hs
    unfold SubliminalFallback.search_for_video at hs
    by_cases ha : avail2 = true
    · rw [if_neg (by simp [ha])] at hs
      cases o with
      | exn => simp at hs
      | subs l =>
          obtain ⟨x, -, rfl⟩ := List.mem_map.1 hs
          constructor
          · show strContains ( "Subliminal (" ++ x.providerName ++ ")" ) "Subliminal" = true
            unfold strContains
            have hsplit : ( "Subliminal (" ++ x.providerName ++ ")" ).data =
                ( "Subliminal" ).data ++
                  (( " (" ).data ++ x.providerName.data ++ ( ")" ).data) := by
              rw [String.data_append, String.data_append]
              have : ( "Subliminal (" : String) = "Subliminal" ++ " (" := by decide
              rw [this, String.data_append]
              simp [List.append_assoc]
            rw [hsplit]
            exact listContainsSeg_prefix _ _
          · rfl
    · rw [if_pos (by simpa using ha)] at hs
      simp at hs
  · intro h
    unfold SubliminalFallback.download
    have hb : (r.subHandle && r.videoHandle) = false := by
      rcases h with h | h <;> simp [h]
    rw [hb]
    simp
  · intro h
    unfold OpenSubtitlesProvider.download
    rw [h]
    simp

/-- Witness for C9: the aggregator result dict built by
`search_for_video` is dispatched by name and fails the structured-API branch,
and a SubDivX-style URL reference fails the provider-class structured-API
download. -/
theorem download_provider_isolation_witness :
    isSubliminalResult ⟨some "Subliminal (gestdown)" , some "es" , [none], true, true⟩ = true ∧
    osDownloadBranch ⟨some "Subliminal (gestdown)" , some "es" , [none], true, true⟩
      (some "https://dl" ) (.resp 200 [1]) = none ∧
    OpenSubtitlesProvider.download "k"
      ⟨ "T" , Language.SPANISH_LATAM, "SubDivX" , "https://www.subdivx.com/subs/1" , "" , 0, 0⟩
      "dest" (.resp 200 (.ok (some "L" , some "f.srt" ))) (some [1]) = none := by
  have h := download_provider_isolation
    ⟨some "Subliminal (gestdown)" , some "es" , [none], true, true⟩ true none
    (some "https://dl" ) (.resp 200 [1]) true
    (.subs [⟨ "gestdown" , true⟩]) "k"
    ⟨ "T" , Language.SPANISH_LATAM, "SubDivX" , "https://www.subdivx.com/subs/1" , "" , 0, 0⟩
    "dest" (.resp 200 (.ok (some "L" , some "f.srt" ))) (some [1])
  have hm := h.2.2.1 ⟨some "Subliminal (gestdown)" , some "es" , [none], true, true⟩
    (by decide)
  exact ⟨hm.1, hm.2, h.2.2.2.2 (by decide)⟩

/-- Everything one iteration of `_do_download_all` consults for one video:
whether filename parsing raises (the only pre-search raise; `get_file_hash`
catches internally), the three-stage search environment, the aggregator and
structured-API download outcomes — the batch loop's `requests.get` is *not*
wrapped in an inner try, so a raised fetch reaches the per-video `except` —
the archive view of the downloaded bytes, and whether the final write
raises. -/
structure BatchVideoEnv where
  parseRaises : Bool
  search : SearchEnv
  poolContent : Option (List Nat)
  link : Option String
  fetch : FetchOutcome
  zip : ZipView
  writeRaises : Bool

/-- One iteration of the batch loop's `try` body: `.error` is a raise reaching
the per-video `except`, `.ok true` a successfully written subtitle, `.ok
false` a video that yielded no results or no content.  (The bytes written are
`extract_subtitle_content` of the fetched content — modelled separately under
C3/C10 — success only tracks whether the write completed.) -/
def processVideo (e : BatchVideoEnv) : Except Unit Bool :=
  if e.parseRaises then .error ()
  else
    match (doSearchStages e.search).1 with
    | [] => .ok false
    | r :: _ =>
      let content : Except Unit (Option (List Nat)) :=
        if isSubliminalResult r then
          .ok (SubliminalFallback.download e.search.subliminalAvailable r e.poolContent)
        else
          match r.files with
          | [] => .ok none
          | fid :: _ =>
            match fid with
            | none => .ok none
            | some fileId =>
              if fileId = 0 then .ok none
              else
                match e.link with
                | none => .ok none
                | some _ =>
                  match e.fetch with
                  | .exn => .error ()
                  | .resp status bytes => .ok (if status = 200 then some bytes else none)
      match content with
      | .error _ => .error ()
      | .ok none => .ok false
      | .ok (some _) => if e.writeRaises then .error () else .ok true

/-- Did this video's iteration end in a successful write? -/
def isBatchSuccess (v : BatchVideoEnv) : Bool :=
  match processVideo v with
  | .ok true => true
  | _ => false

/-- One fold step of the batch loop: bump `downloaded` exactly on a successful
write, recording the video as attempted either way. -/
def batchStep (acc : Nat × List BatchVideoEnv) (v : BatchVideoEnv) :
    Nat × List BatchVideoEnv :=
  ((match processVideo v with
    | .ok true => acc.1 + 1
    | _ => acc.1), acc.2 ++ [v])

/-- The batch loop of `_do_download_all`: videos strictly in list order, the
per-video `except` containing any raise.  Returns the final `downloaded`
count and the videos attempted, in order. -/
def doDownloadAll (videos : List BatchVideoEnv) : Nat × List BatchVideoEnv :=
  videos.foldl batchStep (0, [])

lemma batchStep_eq (acc : Nat × List BatchVideoEnv) (v : BatchVideoEnv) :
    batchStep acc v =
      ((if isBatchSuccess v then acc.1 + 1 else acc.1), acc.2 ++ [v]) := by
  unfold batchStep isBatchSuccess
  cases hp : processVideo v with
  | error e => simp
  | ok b => cases b <;> simp

lemma foldl_batchStep (videos : List BatchVideoEnv) (n : Nat)
    (acc : List BatchVideoEnv) :
    videos.foldl batchStep (n, acc) =
      (n + (videos.filter isBatchSuccess).length, acc ++ videos) := by
  induction videos generalizing n acc with
  | nil => simp
  | cons v vs ih =>
      rw [List.foldl_cons, batchStep_eq, ih]
      by_cases h : isBatchSuccess v <;>
        simp [h, List.filter_cons, Nat.add_comm, Nat.add_assoc, Nat.add_left_comm]

/-- C7: batch mode attempts every video, strictly in sequence — a raise inside
one video's iteration is contained and the remaining videos are still
attempted — and the final reported count equals exactly the number of videos
whose subtitle write succeeded. -/
theorem doDownloadAll_spec (videos : List BatchVideoEnv) :
    (doDownloadAll videos).2 = videos ∧
    (doDownloadAll videos).1 = (videos.filter isBatchSuccess).length := by
  unfold doDownloadAll
  rw [foldl_batchStep]
  simp

/-- The `k`-th name `rename_subtitle` tries: the plain
`video.stem + subtitle.suffix` first, then the numbered
`f"{video.stem}.{counter}{subtitle.suffix}"` for counter ≥ 1. -/
def candName (stem suffix : String) (k : Nat) : String :=
  if k = 0 then stem ++ suffix else stem ++ "." ++ natRepr k ++ suffix

/-- The collision loop of `rename_subtitle`: keep bumping the counter while
the candidate name exists.  `fuel` only bounds the recursion; with
`taken.length + 1` fuel the loop always finds a free name (see
`renameLoop_total`), matching the Python loop, which terminates on any
finite directory. -/
def renameLoop (taken : List String) (stem suffix : String) :
    Nat → Nat → Option String
  | 0, _ => none
  | fuel + 1, k =>
    if candName stem suffix k ∈ taken then renameLoop taken stem suffix fuel (k + 1)
    else some (candName stem suffix k)

/-- `rename_subtitle` from src/utils/file_utils.py, on the names of the
video's directory: `taken` is the set of names that exist there. -/
def rename_subtitle (taken : List String) (subtitlePath videoName : String) :
    Option String :=
  renameLoop taken (pathStem videoName) (pathSuffix subtitlePath) (taken.length + 1) 0

lemma natRepr_data_ne_nil (k : Nat) : (natRepr k).data ≠ [] := by
  unfold natRepr
  by_cases hk : k = 0
  · rw [if_pos hk]
    decide
  · rw [if_neg hk]
    exact natReprAux_ne_nil k k hk le_rfl

lemma candName_injective (stem suffix : String) (j k : Nat)
    (h : candName stem suffix j = candName stem suffix k) : j = k := by
  have hdot : ( "." : String).data.length = 1 := by decide
  unfold candName at h
  by_cases hj : j = 0 <;> by_cases hk : k = 0
  · omega
  · exfalso
    rw [if_pos hj, if_neg hk] at h
    have hlen := congrArg (fun s : String => s.data.length) h
    simp only [String.data_append, List.length_append] at hlen
    have h1 : 1 ≤ (natRepr k).data.length :=
      List.length_pos.2 (natRepr_data_ne_nil k)
    omega
  · exfalso
    rw [if_neg hj, if_pos hk] at h
    have hlen := congrArg (fun s : String => s.data.length) h
    simp only [String.data_append, List.length_append] at hlen
    have h1 : 1 ≤ (natRepr j).data.length :=
      List.length_pos.2 (natRepr_data_ne_nil j)
    omega
  · rw [if_neg hj, if_neg hk] at h
    have hd := congrArg String.data h
    simp only [String.data_append] at hd
    have h2 := List.append_cancel_right hd
    have h3 := List.append_cancel_left h2
    exact natRepr_injective j k (String.ext h3)

lemma renameLoop_none_mem (taken : List String) (stem suffix : String) :
    ∀ fuel start, renameLoop taken stem suffix fuel start = none →
      ∀ j < fuel, candName stem suffix (start + j) ∈ taken := by
  intro fuel
  induction fuel with
  | zero => omega
  | succ fuel ih =>
      intro start hnone j hj
      unfold renameLoop at hnone
      by_cases hmem : candName stem suffix start ∈ taken
      · rw [if_pos hmem] at hnone
        cases j with
        | zero => simpa using hmem
        | succ i =>
            have := ih (start + 1) hnone i (by omega)
            have harith : start + 1 + i = start + (i + 1) := by omega
            rwa [harith] at this
      · rw [if_neg hmem] at hnone
        exact absurd hnone (by simp)

lemma renameLoop_some_spec (taken : List String) (stem suffix : String) :
    ∀ fuel start p, renameLoop taken stem suffix fuel start = some p →
      p ∉ taken ∧ ∃ j, p = candName stem suffix (start + j) ∧
        ∀ i < j, candName stem suffix (start + i) ∈ taken := by
  intro fuel
  induction fuel with
  | zero =>
      intro start p hp
      exact absurd hp (by simp [renameLoop])
  | succ fuel ih =>
      intro start p hp
      unfold renameLoop at hp
      by_cases hmem : candName stem suffix start ∈ taken
      · rw [if_pos hmem] at hp
        obtain ⟨hnot, j, rfl, hbelow⟩ := ih (start + 1) p hp
        refine ⟨hnot, j + 1, by rw [show start + (j + 1) = start + 1 + j by omega], ?_⟩
        intro i hi
        cases i with
        | zero => simpa using hmem
        | succ i' =>
            have := hbelow i' (by omega)
            rwa [show start + 1 + i' = start + (i' + 1) by omega] at this
      · rw [if_neg hmem] at hp
        obtain rfl := Option.some.inj hp
        exact ⟨hmem, 0, by rw [Nat.add_zero], by omega⟩

lemma renameLoop_total (taken : List String) (stem suffix : String) :
    renameLoop taken stem suffix (taken.length + 1) 0 ≠ none := by
  intro hnone
  have hall := renameLoop_none_mem taken stem suffix (taken.length + 1) 0 hnone
  have hsub : (List.range (taken.length + 1)).map (candName stem suffix) ⊆ taken := by
    intro x hx
    obtain ⟨j, hj, rfl⟩ := List.mem_map.1 hx
    simpa using hall j (List.mem_range.1 hj)
  have hnodup : ((List.range (taken.length + 1)).map (candName stem suffix)).Nodup :=
    (List.nodup_range (taken.length + 1)).map
      (fun a b hab => candName_injective stem suffix a b hab)
  have hfinsub : ((List.range (taken.length + 1)).map (candName stem suffix)).toFinset ⊆
      taken.toFinset := by
    intro x hx
    rw [List.mem_toFinset] at hx ⊢
    exact hsub hx
  have hcard := Finset.card_le_card hfinsub
  rw [List.toFinset_card_of_nodup hnodup] at hcard
  have hle := List.toFinset_card_le taken
  simp only [List.length_map, List.length_range] at hcard
  omega

/-- Witness for C7: three videos where the middle one raises (its unguarded
byte fetch throws) — all three are attempted in order and the final count is
2, excluding the raising video. -/
theorem doDownloadAll_spec_witness :
    (doDownloadAll
        [⟨false, ⟨some "h" , true, false, [⟨none, none, [some 5], false, false⟩], [], []⟩,
            none, some "L" , .resp 200 [1], none, false⟩,
         ⟨false, ⟨some "h" , true, false, [⟨none, none, [some 5], false, false⟩], [], []⟩,
            none, some "L" , .exn, none, false⟩,
         ⟨false, ⟨some "h" , true, false, [⟨none, none, [some 5], false, false⟩], [], []⟩,
            none, some "L" , .resp 200 [1], none, false⟩]).2 =
      [⟨false, ⟨some "h" , true, false, [⟨none, none, [some 5], false, false⟩], [], []⟩,
          none, some "L" , .resp 200 [1], none, false⟩,
       ⟨false, ⟨some "h" , true, false, [⟨none, none, [some 5], false, false⟩], [], []⟩,
          none, some "L" , .exn, none, false⟩,
       ⟨false, ⟨some "h" , true, false, [⟨none, none, [some 5], false, false⟩], [], []⟩,
          none, some "L" , .resp 200 [1], none, false⟩] ∧
    (doDownloadAll
        [⟨false, ⟨some "h" , true, false, [⟨none, none, [some 5], false, false⟩], [], []⟩,
            none, some "L" , .resp 200 [1], none, false⟩,
         ⟨false, ⟨some "h" , true, false, [⟨none, none, [some 5], false, false⟩], [], []⟩,
            none, some "L" , .exn, none, false⟩,
         ⟨false, ⟨some "h" , true, false, [⟨none, none, [some 5], false, false⟩], [], []⟩,
            none, some "L" , .resp 200 [1], none, false⟩]).1 = 2 := by
  refine ⟨(doDownloadAll_spec _).1, (doDownloadAll_spec _).2.trans ?_⟩
  decide

/-- C8: `rename_subtitle` never lands on an existing file.  It always returns
a name: the plain `<video-stem><subtitle-extension>` when that is free, else
the numbered `<video-stem>.<k><subtitle-extension>` for the smallest free
k ≥ 1 — every earlier candidate is occupied — and the returned name did not
exist beforehand. -/
theorem rename_subtitle_spec (taken : List String) (subtitlePath videoName : String) :
    ∃ p, rename_subtitle taken subtitlePath videoName = some p ∧
      p ∉ taken ∧
      ∃ k, p = candName (pathStem videoName) (pathSuffix subtitlePath) k ∧
        ∀ i < k, candName (pathStem videoName) (pathSuffix subtitlePath) i ∈ taken := by
  unfold rename_subtitle
  cases hres : renameLoop taken (pathStem videoName) (pathSuffix subtitlePath)
      (taken.length + 1) 0 with
  | none => exact absurd hres (renameLoop_total taken _ _)
  | some p =>
      obtain ⟨hnot, j, hj, hbelow⟩ :=
        renameLoop_some_spec taken (pathStem videoName) (pathSuffix subtitlePath)
          (taken.length + 1) 0 p hres
      refine ⟨p, rfl, hnot, j, by simpa using hj, ?_⟩
      intro i hi
      simpa using hbelow i hi

/-- Witness for C8: with `Show.srt` and `Show.1.srt` both present, the helper
picks `Show.2.srt`, a name that did not exist. -/
theorem rename_subtitle_spec_witness :
    rename_subtitle [ "Show.srt" , "Show.1.srt" ] "old.srt" "Show.mkv" =
      some "Show.2.srt" ∧
    ( "Show.2.srt" : String) ∉ [ "Show.srt" , "Show.1.srt" ] := by
  have h := rename_subtitle_spec [ "Show.srt" , "Show.1.srt" ] "old.srt" "Show.mkv"
  exact ⟨by decide, by decide⟩

end SubsLat
